import Mathlib

/-!
Verification development for the MLS vs CAMA reconciliation tool
(`streamlit_app_FIXED.py`).  The core of the program — the value
comparators (`values_equal`, `categorical_match`, `calculate_difference`)
and the reconciliation engine (`compare_data_enhanced`) — are embedded
shallowly below.  Scalar cell values are modelled by `Value` (a number, a
text, or a null/NaN cell); Python/pandas floats are modelled by exact
rationals, and `pd.to_numeric` is modelled by an explicit parser.
-/

namespace MlsCama

/-- A scalar cell value as it appears in a pandas row: a numeric value,
a text value, or a missing/NaN cell.  (`num` carries an exact rational in
place of a float; `null` models both a missing cell and NaN.) -/
inductive Value where
  | num (q : ℚ)
  | str (s : String)
  | null
deriving DecidableEq

/-- `pd.isna` on a scalar: true exactly for the missing/NaN cell. -/
def Value.isNull : Value → Bool
  | .null => true
  | _ => false

/-- Characters considered whitespace by the trimming model. -/
def trimChars (cs : List Char) : List Char :=
  ((cs.dropWhile Char.isWhitespace).reverse.dropWhile Char.isWhitespace).reverse

/-- Python `s.strip()` (also pandas string trimming): drop whitespace
from both ends.  Defined structurally over the character list so that
concrete instances evaluate. -/
def pyStrip (s : String) : String := String.mk (trimChars s.toList)

/-- Python `s.lower()`: lowercase every character (ASCII model). -/
def pyLower (s : String) : String := String.mk (s.toList.map Char.toLower)

/-- Digits of an integer literal read into a rational. -/
def digitsVal (cs : List Char) : ℚ :=
  cs.foldl (fun a c => 10 * a + ((c.toNat - 48 : ℕ) : ℚ)) 0

/-- Digits of a fractional part read into a rational in `[0, 1)`. -/
def fracVal (cs : List Char) : ℚ :=
  cs.foldr (fun c a => (a + ((c.toNat - 48 : ℕ) : ℚ)) / 10) 0

/-- Unsigned decimal literal: digits with an optional fractional part;
at least one digit must be present (`float(".")` raises in Python). -/
def parseUnsigned (cs : List Char) : Option ℚ :=
  let ip := cs.takeWhile Char.isDigit
  let rest := cs.dropWhile Char.isDigit
  match rest with
  | [] => if ip.isEmpty then none else some (digitsVal ip)
  | '.' :: fp =>
      if fp.all Char.isDigit && !(ip.isEmpty && fp.isEmpty) then
        some (digitsVal ip + fracVal fp)
      else none
  | _ => none

/-- Numeric parse of a string, modelling Python float conversion on the
decimal literals the data uses: surrounding whitespace is ignored, an
optional sign precedes digits with an optional fractional part.
Returns `none` when the string does not parse as a number. -/
def parseNum (s : String) : Option ℚ :=
  match trimChars s.toList with
  | '+' :: rest => parseUnsigned rest
  | '-' :: rest => (parseUnsigned rest).map (fun q => -q)
  | cs => parseUnsigned cs

/-- `pd.to_numeric(v, errors=raise)`: `none` models a raised conversion
error; `some none` models a NaN result (a null cell converts to NaN);
`some (some q)` a successful numeric conversion. -/
def toNumStrict : Value → Option (Option ℚ)
  | .num q => some (some q)
  | .null => some none
  | .str s =>
      match parseNum s with
      | some q => some (some q)
      | none => none

/-- `pd.to_numeric(v, errors=coerce)`: never fails; a value that does
not convert becomes NaN (`none`). -/
def toNumCoerce : Value → Option ℚ
  | .num q => some q
  | .null => none
  | .str s => parseNum s

/-- Python `str(v)` on a non-null scalar.  For a text value this is the
text itself (the only case the configured rules exercise); the rendering
of a numeric value is a simplified model of Python float printing, which
no comparison in this development depends on. -/
def pyStr : Value → String
  | .num q => toString q
  | .str s => s
  | .null => "nan"

/-- `np.isclose(a, b, rtol=1e-9, atol=tol, equal_nan=False)` on two
non-NaN numbers: `|a - b| <= atol + rtol * |b|`.  Note the relative term
is referenced to the second argument only, as in numpy. -/
def isClose (tol a b : ℚ) : Bool :=
  decide (|a - b| ≤ tol + |b| / 1000000000)

/-- `values_equal(val1, val2)` from the source: numeric conversion of
both sides with `errors=raise`; if both convert, NaN-aware tolerance
comparison via `np.isclose`; if either raises, fall back to comparing
`str(v).strip().lower()` (empty string for a null value).
`tol` models the global `NUMERIC_TOLERANCE`. -/
def values_equal (tol : ℚ) (val1 val2 : Value) : Bool :=
  match toNumStrict val1, toNumStrict val2 with
  | some num1, some num2 =>
      match num1, num2 with
      | none, none => true
      | some _, none => false
      | none, some _ => false
      | some a, some b => isClose tol a b
  | _, _ =>
      let str1 := if val1.isNull then "" else pyLower (pyStrip (pyStr val1))
      let str2 := if val2.isNull then "" else pyLower (pyStrip (pyStr val2))
      str1 == str2

/-- A categorical mapping, mirroring one entry of
`COLUMNS_TO_COMPARE_CATEGORICAL`. -/
structure CatRule where
  mls_col : String
  cama_col : String
  mls_check_contains : String
  cama_expected_if_true : Value
  cama_expected_if_false : Value
  case_sensitive : Bool
deriving DecidableEq

/-- Substring containment (Python `needle in haystack`): some suffix of
the haystack starts with the needle. -/
def listInfix (needle hay : List Char) : Bool :=
  (List.range (hay.length + 1)).any (fun i => needle.isPrefixOf (hay.drop i))

/-- The expected CAMA code for a categorical rule: lowercase both the MLS
text and the check text unless `case_sensitive`, test containment, and
select `cama_expected_if_true` or `cama_expected_if_false`.  This is the
text-containment half of `categorical_match`, which the mismatch-entry
construction in `compare_data_enhanced` recomputes verbatim. -/
def expectedCama (r : CatRule) (mls_val : Value) : Value :=
  let mls_str := if mls_val.isNull then "" else pyStrip (pyStr mls_val)
  let mls_str := if r.case_sensitive then mls_str else pyLower mls_str
  let check := if r.case_sensitive then r.mls_check_contains
               else pyLower r.mls_check_contains
  if listInfix check.toList mls_str.toList then r.cama_expected_if_true
  else r.cama_expected_if_false

/-- `categorical_match(mls_val, cama_val, mapping)` from the source: the
CAMA value and the expected code are converted with `errors=coerce`
(never raising on a scalar), then compared NaN-aware with `np.isclose`.
The except fallback of the source to string equality is unreachable for
scalar inputs because `errors=coerce` does not raise, so it has no
counterpart here. -/
def categorical_match (tol : ℚ) (mls_val cama_val : Value) (r : CatRule) : Bool :=
  let expected := expectedCama r mls_val
  match toNumCoerce cama_val, toNumCoerce expected with
  | none, none => true
  | some _, none => false
  | none, some _ => false
  | some a, some b => isClose tol a b

/-- Insert a comma after every third character (digits arrive reversed). -/
def group3 : List Char → List Char
  | a :: b :: c :: d :: rest => a :: b :: c :: ',' :: group3 (d :: rest)
  | l => l

/-- Format a rational as the Python `,.2f` string: sign, thousands
separators, exactly two decimals. -/
def formatComma2 (q : ℚ) : String :=
  let cents : ℤ := round (q * 100)
  let sign := if cents < 0 then "-" else ""
  let n := cents.natAbs
  let ip := n / 100
  let fp := n % 100
  let ipStr := String.mk ((group3 (toString ip).toList.reverse).reverse)
  sign ++ ipStr ++ "." ++ (if fp < 10 then "0" else "") ++ toString fp

/-- `calculate_difference(val1, val2)` from the source: `"Text
difference"` when either side fails numeric conversion, `"N/A"` when
either converts to NaN, otherwise the formatted difference. -/
def calculate_difference (val1 val2 : Value) : String :=
  match toNumStrict val1, toNumStrict val2 with
  | some num1, some num2 =>
      match num1, num2 with
      | some a, some b => formatComma2 (a - b)
      | _, _ => "N/A"
  | _, _ => "Text difference"

/-- A pandas row: an association list from column name to cell value. -/
abbrev Row := List (String × Value)

/-- `row.get(col)` / `row[col]` on a row of the merged frame: the first
binding for the column, or a missing cell.  (In the merged frame a column
the side of the row did not supply holds NaN, which `Value.null` models.) -/
def Row.get (r : Row) (c : String) : Value :=
  match r.find? (fun p => p.1 == c) with
  | some p => p.2
  | none => .null

/-- `row.get(col, default)` where the column may be absent from the frame
altogether: the default is returned only when the column does not exist. -/
def Row.getOr (cols : List String) (r : Row) (c : String) (d : Value) : Value :=
  if cols.contains c then r.get c else d

/-- A direct comparison mapping, mirroring one entry of
`COLUMNS_TO_COMPARE`. -/
structure DirectRule where
  mls_col : String
  cama_col : String
deriving DecidableEq

/-- A summed comparison mapping, mirroring one entry of
`COLUMNS_TO_COMPARE_SUM`. -/
structure SumRule where
  mls_col : String
  cama_cols : List String
deriving DecidableEq

/-- The per-run comparison settings: the global `NUMERIC_TOLERANCE` and
`SKIP_ZERO_VALUES`, re-read per run and modelled as explicit inputs. -/
structure Settings where
  tol : ℚ
  skipZero : Bool
deriving DecidableEq

/-- The three rule lists handed to `compare_data_enhanced`. -/
structure RuleSet where
  direct : List DirectRule
  summed : List SumRule
  categorical : List CatRule
deriving DecidableEq

/-- `pd.isna(v)`, or an instance of `str` that strips to the empty string: the blank
test applied to both sides of Direct and Categorical rules and to the
MLS side of Summed rules. -/
def isBlank : Value → Bool
  | .null => true
  | .str s => pyStrip s == ""
  | .num _ => false

/-- `pd.notna(x) and x == 0` after `pd.to_numeric(v, errors=coerce)`:
the value converts to a number and that number is zero. -/
def isZeroNum (v : Value) : Bool :=
  match toNumCoerce v with
  | some q => q == 0
  | none => false

/-- One row of the `value_mismatches` result set.  The comparison payload
is modelled in full; the contextual presentation columns that are copied
unchanged from the row (listing number, sale key, address fields) and the
two derived URL strings are projected away, as no comparison logic reads
them.  `difference` is present for Direct/Summed entries and
`expected_CAMA_value` with `match_rule` context for Categorical entries,
matching the two dict shapes in the source. -/
structure MismatchEntry where
  parcel_id : Value
  field_MLS : String
  field_CAMA : String
  mls_value : Value
  cama_value : Value
  difference : Option String
  expected_CAMA_value : Option Value
deriving DecidableEq

/-- One row of the `perfect_matches` result set (same projection of the
presentation columns as `MismatchEntry`). -/
structure PerfectEntry where
  parcel_id : Value
  fields_Compared : ℕ
  fields_List : String
deriving DecidableEq

/-- One row of the `missing_in_cama` result set. -/
structure MissingCamaEntry where
  parcel_id : Value
  listing_Number : Value
  closed_Date : Value
deriving DecidableEq

/-- One row of the `missing_in_mls` result set. -/
structure MissingMlsEntry where
  parcel_id : Value
deriving DecidableEq

/-- The per-record accumulation state inside the `both` branch:
`fields_compared` and `record_mismatches`. -/
structure RecState where
  fields : List String
  mism : List MismatchEntry
deriving DecidableEq

/-- The mismatch entry appended by a failing Direct rule:
both raw values and the computed difference. -/
def directEntry (pid : Value) (m : DirectRule) (mls_val cama_val : Value) :
    MismatchEntry :=
  ⟨pid, m.mls_col, m.cama_col, mls_val, cama_val,
    some (calculate_difference mls_val cama_val), none⟩

/-- The mismatch entry appended by a failing Summed rule: the CAMA field
name is rendered as `SUM(...)` over the component columns and the CAMA
value is the computed sum. -/
def sumEntry (pid : Value) (m : SumRule) (mls_val sum_val : Value) :
    MismatchEntry :=
  ⟨pid, m.mls_col, "SUM(" ++ String.intercalate ", " m.cama_cols ++ ")",
    mls_val, sum_val, some (calculate_difference mls_val sum_val), none⟩

/-- The mismatch entry appended by a failing Categorical rule: no
difference, but the recomputed expected CAMA code. -/
def catEntry (pid : Value) (m : CatRule) (mls_val cama_val : Value) :
    MismatchEntry :=
  ⟨pid, m.mls_col, m.cama_col, mls_val, cama_val, none,
    some (expectedCama m mls_val)⟩

/-- One iteration of the Direct-rule loop (source lines 203-250): skip if
either column is absent from the merged frame; skip if either value is
blank; otherwise record the field as compared, then skip if the zero-skip
policy applies to both values, otherwise test `values_equal` and append a
mismatch entry on failure. -/
def directStep (cfg : Settings) (cols : List String) (row : Row) (pid : Value)
    (s : RecState) (m : DirectRule) : RecState :=
  if cols.contains m.mls_col && cols.contains m.cama_col then
    let mls_val := row.get m.mls_col
    let cama_val := row.get m.cama_col
    if isBlank mls_val || isBlank cama_val then s
    else
      let fields := s.fields ++ [m.mls_col]
      if cfg.skipZero && (isZeroNum mls_val && isZeroNum cama_val) then
        ⟨fields, s.mism⟩
      else if values_equal cfg.tol mls_val cama_val then ⟨fields, s.mism⟩
      else ⟨fields, s.mism ++ [directEntry pid m mls_val cama_val]⟩
  else s

/-- One component of the running CAMA sum of a Summed rule (source lines
272-279): a component with a non-null cell is converted with
`errors=coerce` and added; a component that coerces to NaN poisons the
whole sum to NaN (`none`), as float NaN propagates through `+=`.  Null
components are not added at all. -/
def camaSumStep (row : Row) (acc : Option ℚ) (c : String) : Option ℚ :=
  let v := row.get c
  if v.isNull then acc
  else
    match acc, toNumCoerce v with
    | some a, some q => some (a + q)
    | _, _ => none

/-- The CAMA sum of a Summed rule: `camaSumStep` folded over the
component columns from `0`. -/
def camaSum (row : Row) (cs : List String) : Option ℚ :=
  cs.foldl (camaSumStep row) (some 0)

/-- The CAMA sum as the scalar handed to `values_equal` and
`calculate_difference`: a number, or NaN. -/
def sumValue (row : Row) (cs : List String) : Value :=
  match camaSum row cs with
  | some q => .num q
  | none => .null

/-- One iteration of the Summed-rule loop (source lines 254-314): skip if
the MLS column or any CAMA component column is absent; skip if the MLS
value is blank; skip if every CAMA component is null; otherwise record
the field as compared, then skip when the zero-skip policy sees an MLS
zero and an exactly-zero sum, otherwise test `values_equal` against the
sum and append a mismatch entry on failure. -/
def sumStep (cfg : Settings) (cols : List String) (row : Row) (pid : Value)
    (s : RecState) (m : SumRule) : RecState :=
  if cols.contains m.mls_col && m.cama_cols.all (fun c => cols.contains c) then
    let mls_val := row.get m.mls_col
    if isBlank mls_val then s
    else if m.cama_cols.all (fun c => (row.get c).isNull) then s
    else
      let cama_sum := camaSum row m.cama_cols
      let sum_val := sumValue row m.cama_cols
      let fields := s.fields ++ [m.mls_col]
      if cfg.skipZero && (isZeroNum mls_val && cama_sum == some 0) then
        ⟨fields, s.mism⟩
      else if values_equal cfg.tol mls_val sum_val then ⟨fields, s.mism⟩
      else ⟨fields, s.mism ++ [sumEntry pid m mls_val sum_val]⟩
  else s

/-- One iteration of the Categorical-rule loop (source lines 318-367):
skip if either column is absent; skip if either value is blank; otherwise
record the field as compared, evaluate `categorical_match`, and on
failure append a mismatch entry carrying the recomputed expected CAMA
code. -/
def catStep (cfg : Settings) (cols : List String) (row : Row) (pid : Value)
    (s : RecState) (m : CatRule) : RecState :=
  if cols.contains m.mls_col && cols.contains m.cama_col then
    let mls_val := row.get m.mls_col
    let cama_val := row.get m.cama_col
    if isBlank mls_val || isBlank cama_val then s
    else
      let fields := s.fields ++ [m.mls_col]
      if categorical_match cfg.tol mls_val cama_val m then ⟨fields, s.mism⟩
      else ⟨fields, s.mism ++ [catEntry pid m mls_val cama_val]⟩
  else s

/-- The whole `both` branch of the row loop: the Direct rules, then the
Summed rules, then the Categorical rules, threaded through the
`fields_compared` / `record_mismatches` state. -/
def processBothRecord (cfg : Settings) (cols : List String) (row : Row)
    (pid : Value) (rules : RuleSet) : RecState :=
  let s := rules.direct.foldl (directStep cfg cols row pid) ⟨[], []⟩
  let s := rules.summed.foldl (sumStep cfg cols row pid) s
  rules.categorical.foldl (catStep cfg cols row pid) s

/-- The perfect-match emission (source lines 370-385): exactly one entry
when no mismatch was recorded and at least one field was compared,
otherwise nothing. -/
def perfectOf (s : RecState) (pid : Value) : List PerfectEntry :=
  if s.mism = [] ∧ s.fields ≠ [] then
    [⟨pid, s.fields.length, String.intercalate ", " s.fields⟩]
  else []

/-- The `_merge` indicator of the outer join. -/
inductive MergeTag where
  | left_only
  | right_only
  | both
deriving DecidableEq

/-- An input dataframe: its column list and its rows. -/
structure Table where
  cols : List String
  rows : List Row
deriving DecidableEq

/-- The five collections returned by `compare_data_enhanced`. -/
structure ReconcileResult where
  missingInCama : List MissingCamaEntry
  missingInMls : List MissingMlsEntry
  mismatches : List MismatchEntry
  matched : List Row
  perfect : List PerfectEntry
deriving DecidableEq

/-- The rename of the MLS key column to the CAMA key column name
(`df_mls.rename`), applied to one row. -/
def renameKey (mlsKey camaKey : String) (r : Row) : Row :=
  r.map (fun p => if p.1 = mlsKey then (camaKey, p.2) else p)

/-- The outer merge with indicator (`pd.merge(..., how=outer,
indicator=True)`) for key-unique tables: each left row pairs with every
right row sharing its key (concatenating the two rows) or stands alone as
`left_only`; unmatched right rows follow as `right_only`.  The model
assumes — as the configured schemas guarantee — that the two tables share
no column name besides the join key, so no pandas suffixing arises. -/
def outerMerge (leftRows rightRows : List Row) (key : String) :
    List (Row × MergeTag) :=
  (leftRows.flatMap (fun l =>
    let ms := rightRows.filter (fun r => r.get key == l.get key)
    if ms.isEmpty then [(l, MergeTag.left_only)]
    else ms.map (fun r => (l ++ r, MergeTag.both)))) ++
  ((rightRows.filter
      (fun r => !(leftRows.any (fun l => l.get key == r.get key)))).map
    (fun r => (r, MergeTag.right_only)))

/-- The inner merge (`pd.merge(..., how=inner)`), the `matched_df`
result. -/
def innerMerge (leftRows rightRows : List Row) (key : String) : List Row :=
  leftRows.flatMap (fun l =>
    (rightRows.filter (fun r => r.get key == l.get key)).map (fun r => l ++ r))

/-- The contribution of one outer-merge row to the result collections
(the body of the row loop, source lines 172-387). -/
def rowStep (cfg : Settings) (mergedCols : List String) (camaKey : String)
    (rules : RuleSet) (acc : ReconcileResult) (pr : Row × MergeTag) :
    ReconcileResult :=
  let row := pr.1
  let pid := row.get camaKey
  match pr.2 with
  | .left_only =>
      { acc with
        missingInCama := acc.missingInCama ++
          [⟨pid, Row.getOr mergedCols row "Listing #" (.str ""),
            Row.getOr mergedCols row "Closed Date" (.str "")⟩] }
  | .right_only =>
      { acc with missingInMls := acc.missingInMls ++ [⟨pid⟩] }
  | .both =>
      let s := processBothRecord cfg mergedCols row pid rules
      { acc with
        mismatches := acc.mismatches ++ s.mism,
        perfect := acc.perfect ++ perfectOf s pid }

/-- `compare_data_enhanced` from the source: validate the key columns
(returning five empty collections on failure), rename the MLS key,
compute the inner and outer merges, and fold the row loop over the outer
merge.  The tolerance and zero-skip globals are modelled as the explicit
`cfg` input, re-read per run as in the app. -/
def compare_data_enhanced (df_mls df_cama : Table) (mlsKey camaKey : String)
    (rules : RuleSet) (cfg : Settings) : ReconcileResult :=
  if !(df_mls.cols.contains mlsKey) || !(df_cama.cols.contains camaKey) then
    ⟨[], [], [], [], []⟩
  else
    let leftRows := df_mls.rows.map (renameKey mlsKey camaKey)
    let mlsCols := df_mls.cols.map (fun c => if c = mlsKey then camaKey else c)
    let mergedCols := mlsCols ++ df_cama.cols.filter (fun c => !(mlsCols.contains c))
    let matched := innerMerge leftRows df_cama.rows camaKey
    let mergedRows := outerMerge leftRows df_cama.rows camaKey
    mergedRows.foldl (rowStep cfg mergedCols camaKey rules)
      ⟨[], [], [], matched, []⟩

/-- A Direct rule reaches its `fields_compared.append` (is "tracked as
evaluated"): both columns are present and neither value is blank.  Note
this is independent of the zero-skip policy, which runs after the
append. -/
def directEvaluated (cols : List String) (row : Row) (m : DirectRule) : Bool :=
  cols.contains m.mls_col && cols.contains m.cama_col &&
    !(isBlank (row.get m.mls_col) || isBlank (row.get m.cama_col))

/-- A Summed rule reaches its `fields_compared.append`: all columns
present, the MLS value not blank, and not every CAMA component null. -/
def sumEvaluated (cols : List String) (row : Row) (m : SumRule) : Bool :=
  (cols.contains m.mls_col && m.cama_cols.all (fun c => cols.contains c)) &&
    !(isBlank (row.get m.mls_col)) &&
    !(m.cama_cols.all (fun c => (row.get c).isNull))

/-- A Categorical rule reaches its `fields_compared.append`: both columns
present and neither value blank. -/
def catEvaluated (cols : List String) (row : Row) (m : CatRule) : Bool :=
  cols.contains m.mls_col && cols.contains m.cama_col &&
    !(isBlank (row.get m.mls_col) || isBlank (row.get m.cama_col))

/-- Modelled from the spec: the categorical comparison as the spec
describes it — numeric tolerance comparison of the CAMA value against
the expected code under the `values_equal` null policy (both null true,
one null false), falling back to case-insensitive trimmed string
equality when numeric parsing fails for either side.  Stated only to be
compared against the source-derived `categorical_match`. -/
def categoricalMatchSpec (tol : ℚ) (mls_val cama_val : Value) (r : CatRule) : Bool :=
  let expected := expectedCama r mls_val
  match toNumStrict cama_val, toNumStrict expected with
  | some (some a), some (some b) => isClose tol a b
  | some none, some none => true
  | some none, some (some _) => false
  | some (some _), some none => false
  | _, _ =>
      (if cama_val.isNull then "" else pyLower (pyStrip (pyStr cama_val))) ==
        (if expected.isNull then "" else pyLower (pyStrip (pyStr expected)))

/-- Default settings of the app: tolerance `0.01`, zero-skip on. -/
def defaultSettings : Settings := ⟨1/100, true⟩

/-- The configured Summed rule of the app. -/
def belowGradeRule : SumRule :=
  ⟨"Below Grade Finished Area", ["RECROMAREA", "FINBSMTAREA", "UFEATAREA"]⟩

/-- The columns a record carrying the Summed rule uses. -/
def belowGradeCols : List String :=
  ["PARID", "Below Grade Finished Area", "RECROMAREA", "FINBSMTAREA", "UFEATAREA"]

/-- A joined record with MLS Below-Grade 800 and CAMA components summing
to 800. -/
def rowSum800 : Row :=
  [("PARID", .str "P"), ("Below Grade Finished Area", .num 800),
   ("RECROMAREA", .num 300), ("FINBSMTAREA", .num 200), ("UFEATAREA", .num 300)]

/-- A joined record with MLS Below-Grade 800 and CAMA components summing
to 750. -/
def rowSum750 : Row :=
  [("PARID", .str "P"), ("Below Grade Finished Area", .num 800),
   ("RECROMAREA", .num 300), ("FINBSMTAREA", .num 200), ("UFEATAREA", .num 250)]

/-- The configured Categorical rule of the app (`Cooling` vs `HEAT`). -/
def coolingRule : CatRule :=
  ⟨"Cooling", "HEAT", "Central Air", .num 1, .num 0, false⟩

/-- A variant of the cooling rule whose false-branch code is the text
`"No"`, exercising the non-numeric expected-value path. -/
def coolingRuleText : CatRule :=
  ⟨"Cooling", "HEAT", "Central Air", .num 1, .str "No", false⟩

/-- A variant whose false-branch code is the text `"yes"`. -/
def coolingRuleYes : CatRule :=
  ⟨"Cooling", "HEAT", "Central Air", .num 1, .str "yes", false⟩

/-- The mismatch entries (zero or one) an evaluated Direct rule
contributes: none when zero-skipped or equal, one entry otherwise. -/
def directOutcome (cfg : Settings) (row : Row) (pid : Value) (m : DirectRule) :
    List MismatchEntry :=
  let mls_val := row.get m.mls_col
  let cama_val := row.get m.cama_col
  if cfg.skipZero && (isZeroNum mls_val && isZeroNum cama_val) then []
  else if values_equal cfg.tol mls_val cama_val then []
  else [directEntry pid m mls_val cama_val]

/-- The mismatch entries (zero or one) an evaluated Summed rule
contributes. -/
def sumOutcome (cfg : Settings) (row : Row) (pid : Value) (m : SumRule) :
    List MismatchEntry :=
  let mls_val := row.get m.mls_col
  let sum_val := sumValue row m.cama_cols
  if cfg.skipZero && (isZeroNum mls_val && camaSum row m.cama_cols == some 0) then []
  else if values_equal cfg.tol mls_val sum_val then []
  else [sumEntry pid m mls_val sum_val]

/-- The mismatch entries (zero or one) an evaluated Categorical rule
contributes. -/
def catOutcome (cfg : Settings) (row : Row) (pid : Value) (m : CatRule) :
    List MismatchEntry :=
  let mls_val := row.get m.mls_col
  let cama_val := row.get m.cama_col
  if categorical_match cfg.tol mls_val cama_val m then []
  else [catEntry pid m mls_val cama_val]

/-- A joined record whose single Direct rule sees a numeric zero on both
sides. -/
def rowBothZero : Row := [("PARID", .str "P1"), ("A", .num 0), ("B", .num 0)]

/-- A Direct rule over the two value columns of `rowBothZero`. -/
def zeroRule : DirectRule := ⟨"A", "B"⟩

/-- The columns of the record carrying the cooling rule. -/
def coolingCols : List String := ["PARID", "Cooling", "HEAT"]

/-- A joined record whose MLS cooling text contains "Central Air" and
whose CAMA heat code is 1. -/
def rowCooling1 : Row :=
  [("PARID", .str "P"), ("Cooling", .str "Central Air, Ceiling Fan"),
   ("HEAT", .num 1)]

/-- A joined record whose MLS cooling text is "None" and whose CAMA heat
code is 1. -/
def rowCooling2 : Row :=
  [("PARID", .str "P"), ("Cooling", .str "None"), ("HEAT", .num 1)]

/-- A two-row MLS table over parcels A and B. -/
def exampleMls : Table :=
  ⟨["Parcel Number", "Bedrooms Total"],
   [[("Parcel Number", .str "A"), ("Bedrooms Total", .num 3)],
    [("Parcel Number", .str "B"), ("Bedrooms Total", .num 4)]]⟩

/-- A two-row CAMA table over parcels B and C. -/
def exampleCama : Table :=
  ⟨["PARID", "RMBED"],
   [[("PARID", .str "B"), ("RMBED", .num 4)],
    [("PARID", .str "C"), ("RMBED", .num 2)]]⟩

/-- A rule set holding one Direct rule over the example tables. -/
def exampleRules : RuleSet := ⟨[⟨"Bedrooms Total", "RMBED"⟩], [], []⟩

end MlsCama
namespace MlsCama

section

attribute [local semireducible] Rat.add Rat.sub Rat.mul Rat.inv

/-- Characterization of one Direct-rule iteration: when the rule reaches
its tracking append, the field is recorded and the mismatch list grows by
the rule outcome; otherwise the state is untouched. -/
theorem directStep_eq (cfg : Settings) (cols : List String) (row : Row)
    (pid : Value) (s : RecState) (m : DirectRule) :
    directStep cfg cols row pid s m =
      if directEvaluated cols row m then
        ⟨s.fields ++ [m.mls_col], s.mism ++ directOutcome cfg row pid m⟩
      else s := by
  unfold directStep directEvaluated directOutcome
  split_ifs <;> simp_all
  split_ifs <;> simp

/-- Characterization of one Summed-rule iteration. -/
theorem sumStep_eq (cfg : Settings) (cols : List String) (row : Row)
    (pid : Value) (s : RecState) (m : SumRule) :
    sumStep cfg cols row pid s m =
      if sumEvaluated cols row m then
        ⟨s.fields ++ [m.mls_col], s.mism ++ sumOutcome cfg row pid m⟩
      else s := by
  unfold sumStep sumEvaluated sumOutcome
  by_cases h1 : (cols.contains m.mls_col && m.cama_cols.all fun c => cols.contains c) = true
  · by_cases h2 : isBlank (row.get m.mls_col) = true
    · simp [h1, h2]
    · rw [Bool.not_eq_true] at h2
      by_cases h3 : (m.cama_cols.all fun c => (row.get c).isNull) = true
      · simp [h1, h2, h3]
      · rw [Bool.not_eq_true] at h3
        simp only [h1, h2, h3, Bool.not_false, Bool.and_true, Bool.true_and,
          Bool.false_eq_true, if_true, if_false]
        split_ifs <;> simp
  · simp_all
    have hno : ¬(m.mls_col ∈ cols ∧ ∀ x ∈ m.cama_cols, x ∈ cols) := by
      rintro ⟨ha, hb⟩
      obtain ⟨x, hx, hnx⟩ := h1 ha
      exact hnx (hb x hx)
    rw [if_neg hno, if_neg (by rintro ⟨⟨h, -⟩, -⟩; exact hno h)]

/-- Characterization of one Categorical-rule iteration. -/
theorem catStep_eq (cfg : Settings) (cols : List String) (row : Row)
    (pid : Value) (s : RecState) (m : CatRule) :
    catStep cfg cols row pid s m =
      if catEvaluated cols row m then
        ⟨s.fields ++ [m.mls_col], s.mism ++ catOutcome cfg row pid m⟩
      else s := by
  unfold catStep catEvaluated catOutcome
  split_ifs <;> simp_all
  split_ifs <;> simp

/-- The Direct-rule loop, characterized over the whole rule list. -/
theorem foldl_directStep (cfg : Settings) (cols : List String) (row : Row)
    (pid : Value) :
    ∀ (l : List DirectRule) (s : RecState),
      l.foldl (directStep cfg cols row pid) s =
        ⟨s.fields ++ (l.filter (directEvaluated cols row)).map DirectRule.mls_col,
          s.mism ++ (l.filter (directEvaluated cols row)).flatMap
            (directOutcome cfg row pid)⟩ := by
  intro l
  induction l with
  | nil => intro s; cases s; simp
  | cons m l ih =>
      intro s
      rw [List.foldl_cons, directStep_eq, List.filter_cons]
      by_cases hp : directEvaluated cols row m = true
      · simp [hp, ih, List.append_assoc]
      · simp [hp, ih]

/-- The Summed-rule loop, characterized over the whole rule list. -/
theorem foldl_sumStep (cfg : Settings) (cols : List String) (row : Row)
    (pid : Value) :
    ∀ (l : List SumRule) (s : RecState),
      l.foldl (sumStep cfg cols row pid) s =
        ⟨s.fields ++ (l.filter (sumEvaluated cols row)).map SumRule.mls_col,
          s.mism ++ (l.filter (sumEvaluated cols row)).flatMap
            (sumOutcome cfg row pid)⟩ := by
  intro l
  induction l with
  | nil => intro s; cases s; simp
  | cons m l ih =>
      intro s
      rw [List.foldl_cons, sumStep_eq, List.filter_cons]
      by_cases hp : sumEvaluated cols row m = true
      · simp [hp, ih, List.append_assoc]
      · simp [hp, ih]

/-- The Categorical-rule loop, characterized over the whole rule list. -/
theorem foldl_catStep (cfg : Settings) (cols : List String) (row : Row)
    (pid : Value) :
    ∀ (l : List CatRule) (s : RecState),
      l.foldl (catStep cfg cols row pid) s =
        ⟨s.fields ++ (l.filter (catEvaluated cols row)).map CatRule.mls_col,
          s.mism ++ (l.filter (catEvaluated cols row)).flatMap
            (catOutcome cfg row pid)⟩ := by
  intro l
  induction l with
  | nil => intro s; cases s; simp
  | cons m l ih =>
      intro s
      rw [List.foldl_cons, catStep_eq, List.filter_cons]
      by_cases hp : catEvaluated cols row m = true
      · simp [hp, ih, List.append_assoc]
      · simp [hp, ih]

/-- The whole BOTH branch: the compared fields are the evaluated rules in
configuration order, and the record mismatches are the concatenated rule
outcomes. -/
theorem processBothRecord_eq (cfg : Settings) (cols : List String) (row : Row)
    (pid : Value) (rules : RuleSet) :
    processBothRecord cfg cols row pid rules =
      ⟨(rules.direct.filter (directEvaluated cols row)).map DirectRule.mls_col ++
          (rules.summed.filter (sumEvaluated cols row)).map SumRule.mls_col ++
          (rules.categorical.filter (catEvaluated cols row)).map CatRule.mls_col,
        (rules.direct.filter (directEvaluated cols row)).flatMap
            (directOutcome cfg row pid) ++
          (rules.summed.filter (sumEvaluated cols row)).flatMap
            (sumOutcome cfg row pid) ++
          (rules.categorical.filter (catEvaluated cols row)).flatMap
            (catOutcome cfg row pid)⟩ := by
  simp only [processBothRecord]
  rw [foldl_directStep, foldl_sumStep, foldl_catStep]
  simp [List.append_assoc]

/-- A value that numerically coerces to a number is not blank: a null
cell coerces to NaN and a whitespace-only string fails the parse. -/
theorem isBlank_eq_false_of_coerce (v : Value) (q : ℚ)
    (h : toNumCoerce v = some q) : isBlank v = false := by
  cases v with
  | num p => rfl
  | null => simp [toNumCoerce] at h
  | str s =>
      simp only [toNumCoerce] at h
      simp only [isBlank]
      by_cases hs : trimChars s.toList = []
      · have hp : parseNum s = none := by
          unfold parseNum
          rw [hs]
          rfl
        rw [hp] at h
        simp at h
      · rw [beq_eq_false_iff_ne]
        intro he
        apply hs
        have h2 := congrArg String.toList he
        simpa [pyStrip] using h2

/-- Boolean string equality is symmetric. -/
theorem string_beq_comm (s t : String) : (s == t) = (t == s) := by
  by_cases h : s = t
  · simp [h]
  · simp [h, Ne.symm h]

/-- Null components do not contribute to the CAMA sum: filtering them out
leaves the fold unchanged. -/
theorem camaSum_skip_null (row : Row) :
    ∀ (cs : List String) (acc : Option ℚ),
      cs.foldl (camaSumStep row) acc =
        (cs.filter fun c => !(row.get c).isNull).foldl (camaSumStep row) acc := by
  intro cs
  induction cs with
  | nil => intro acc; rfl
  | cons c cs ih =>
      intro acc
      by_cases hc : (row.get c).isNull = true
      · simp [List.filter_cons, hc, camaSumStep, ih]
      · simp [List.filter_cons, hc, ih]

/-- Claim C1: every joined BOTH record lands in exactly one of three
mutually exclusive outcomes — it contributes one or more mismatch
entries, or exactly one perfect-match entry, or neither (exactly when no
rule was evaluated); it never contributes both kinds of entry, a
perfect-match entry requires at least one evaluated rule, and the row
loop extends the run totals by exactly these per-record contributions. -/
theorem both_record_outcome_exclusive (cfg : Settings) (cols : List String)
    (row : Row) (pid : Value) (rules : RuleSet) (camaKey : String) :
    (((processBothRecord cfg cols row pid rules).mism ≠ [] ∧
        perfectOf (processBothRecord cfg cols row pid rules) pid = []) ∨
      ((processBothRecord cfg cols row pid rules).mism = [] ∧
        (perfectOf (processBothRecord cfg cols row pid rules) pid).length = 1 ∧
        (processBothRecord cfg cols row pid rules).fields ≠ []) ∨
      ((processBothRecord cfg cols row pid rules).mism = [] ∧
        perfectOf (processBothRecord cfg cols row pid rules) pid = [] ∧
        (processBothRecord cfg cols row pid rules).fields = [])) ∧
    (∀ e ∈ perfectOf (processBothRecord cfg cols row pid rules) pid,
      (processBothRecord cfg cols row pid rules).mism = [] ∧
      (processBothRecord cfg cols row pid rules).fields ≠ []) ∧
    (∀ acc : ReconcileResult,
      (rowStep cfg cols camaKey rules acc (row, MergeTag.both)).mismatches =
        acc.mismatches ++
          (processBothRecord cfg cols row (row.get camaKey) rules).mism ∧
      (rowStep cfg cols camaKey rules acc (row, MergeTag.both)).perfect =
        acc.perfect ++
          perfectOf (processBothRecord cfg cols row (row.get camaKey) rules)
            (row.get camaKey)) := by
  set s := processBothRecord cfg cols row pid rules with hs
  by_cases hm : s.mism = [] <;> by_cases hf : s.fields = [] <;>
    simp [perfectOf, hm, hf, rowStep]

/-- Witness: at the all-zero record the exclusive-outcome theorem yields
a perfect-match entry whose presence forces no mismatches and a nonempty
evaluated-field list. -/
theorem both_record_outcome_exclusive_witness :
    (processBothRecord defaultSettings ["PARID", "A", "B"] rowBothZero
        (.str "P1") ⟨[zeroRule], [], []⟩).mism = [] ∧
    (processBothRecord defaultSettings ["PARID", "A", "B"] rowBothZero
        (.str "P1") ⟨[zeroRule], [], []⟩).fields ≠ [] := by
  exact (both_record_outcome_exclusive defaultSettings ["PARID", "A", "B"]
    rowBothZero (.str "P1") ⟨[zeroRule], [], []⟩ "PARID").2.1
    ⟨.str "P1", 1, "A"⟩ (by decide)

/-- Claim C2 counterexample: with zero-skip on and a single Direct rule
whose two values are both numerically zero, the rule is zero-skipped yet
its field is still tracked as evaluated, and the record emits a
perfect-match entry — refuting the claim that evaluated fields exclude
zero-skipped rules and that an all-skipped record emits nothing. -/
theorem zero_skip_counted_as_evaluated :
    (processBothRecord defaultSettings ["PARID", "A", "B"] rowBothZero
        (.str "P1") ⟨[zeroRule], [], []⟩).fields = ["A"] ∧
    (processBothRecord defaultSettings ["PARID", "A", "B"] rowBothZero
        (.str "P1") ⟨[zeroRule], [], []⟩).mism = [] ∧
    (perfectOf (processBothRecord defaultSettings ["PARID", "A", "B"] rowBothZero
        (.str "P1") ⟨[zeroRule], [], []⟩) (.str "P1")).length = 1 := by
  decide

/-- Claim C2 (amended): the fields tracked as evaluated are exactly the
rules over present columns that were not blank-skipped — zero-skipped
rules are still tracked, because the tracking append precedes the
zero-skip test; consequently a BOTH record whose every rule is
blank-skipped or column-absent produces no mismatch entry and no
perfect-match entry. -/
theorem evaluated_fields_characterization (cfg : Settings) (cols : List String)
    (row : Row) (pid : Value) (rules : RuleSet) :
    (processBothRecord cfg cols row pid rules).fields =
      (rules.direct.filter (directEvaluated cols row)).map DirectRule.mls_col ++
        (rules.summed.filter (sumEvaluated cols row)).map SumRule.mls_col ++
        (rules.categorical.filter (catEvaluated cols row)).map CatRule.mls_col ∧
    ((∀ m ∈ rules.direct, directEvaluated cols row m = false) →
      (∀ m ∈ rules.summed, sumEvaluated cols row m = false) →
      (∀ m ∈ rules.categorical, catEvaluated cols row m = false) →
      (processBothRecord cfg cols row pid rules).mism = [] ∧
      perfectOf (processBothRecord cfg cols row pid rules) pid = []) := by
  constructor
  · rw [processBothRecord_eq]
  · intro hd hs hc
    have h1 : rules.direct.filter (directEvaluated cols row) = [] := by
      simp only [List.filter_eq_nil_iff]
      intro m hm
      simp [hd m hm]
    have h2 : rules.summed.filter (sumEvaluated cols row) = [] := by
      simp only [List.filter_eq_nil_iff]
      intro m hm
      simp [hs m hm]
    have h3 : rules.categorical.filter (catEvaluated cols row) = [] := by
      simp only [List.filter_eq_nil_iff]
      intro m hm
      simp [hc m hm]
    rw [processBothRecord_eq]
    simp [h1, h2, h3, perfectOf]

/-- Witness: a record whose only rule is blank-skipped (whitespace MLS
value) produces no mismatch entry and no perfect-match entry. -/
theorem evaluated_fields_characterization_witness :
    (processBothRecord defaultSettings ["A", "B"] [("A", .str " "), ("B", .num 10)]
        (.str "P") ⟨[zeroRule], [], []⟩).mism = [] ∧
    perfectOf (processBothRecord defaultSettings ["A", "B"]
        [("A", .str " "), ("B", .num 10)] (.str "P") ⟨[zeroRule], [], []⟩)
      (.str "P") = [] := by
  exact (evaluated_fields_characterization defaultSettings ["A", "B"]
    [("A", .str " "), ("B", .num 10)] (.str "P") ⟨[zeroRule], [], []⟩).2
    (by decide) (by decide) (by decide)

/-- Claim C3: with zero-skip enabled, a Direct rule whose two values both
coerce to numeric zero is skipped and emits no mismatch entry; when the
MLS side is zero and the CAMA side a different number, the rule is
evaluated normally and emits exactly one mismatch entry when the values
are unequal under the tolerance. -/
theorem zero_skip_direct_policy (cfg : Settings) (cols : List String) (row : Row)
    (pid : Value) (s : RecState) (m : DirectRule)
    (hz : cfg.skipZero = true)
    (h1 : cols.contains m.mls_col = true)
    (h2 : cols.contains m.cama_col = true) :
    (toNumCoerce (row.get m.mls_col) = some 0 →
      toNumCoerce (row.get m.cama_col) = some 0 →
      directStep cfg cols row pid s m = ⟨s.fields ++ [m.mls_col], s.mism⟩) ∧
    (∀ q : ℚ, toNumCoerce (row.get m.mls_col) = some 0 →
      toNumCoerce (row.get m.cama_col) = some q → ¬q = 0 →
      values_equal cfg.tol (row.get m.mls_col) (row.get m.cama_col) = false →
      directStep cfg cols row pid s m =
        ⟨s.fields ++ [m.mls_col],
          s.mism ++ [directEntry pid m (row.get m.mls_col) (row.get m.cama_col)]⟩) := by
  have hm1 : m.mls_col ∈ cols := by simpa using h1
  have hm2 : m.cama_col ∈ cols := by simpa using h2
  constructor
  · intro hm hc
    have hbm := isBlank_eq_false_of_coerce _ _ hm
    have hbc := isBlank_eq_false_of_coerce _ _ hc
    have he : directEvaluated cols row m = true := by
      simp [directEvaluated, hm1, hm2, hbm, hbc]
    rw [directStep_eq, he]
    have hz1 : isZeroNum (row.get m.mls_col) = true := by simp [isZeroNum, hm]
    have hz2 : isZeroNum (row.get m.cama_col) = true := by simp [isZeroNum, hc]
    simp [directOutcome, hz, hz1, hz2]
  · intro q hm hc hq hne
    have hbm := isBlank_eq_false_of_coerce _ _ hm
    have hbc := isBlank_eq_false_of_coerce _ _ hc
    have he : directEvaluated cols row m = true := by
      simp [directEvaluated, hm1, hm2, hbm, hbc]
    rw [directStep_eq, he]
    have hz2 : isZeroNum (row.get m.cama_col) = false := by simp [isZeroNum, hc, hq]
    simp [directOutcome, hz2, hne]

/-- Witness: both sides zero is skipped without a mismatch; MLS zero
against CAMA five emits one mismatch entry. -/
theorem zero_skip_direct_policy_witness :
    directStep defaultSettings ["A", "B"] rowBothZero (.str "P1") ⟨[], []⟩
        zeroRule = ⟨["A"], []⟩ ∧
    directStep defaultSettings ["A", "B"] [("A", .num 0), ("B", .num 5)]
        (.str "P") ⟨[], []⟩ zeroRule =
      ⟨["A"], [directEntry (.str "P") zeroRule (.num 0) (.num 5)]⟩ := by
  constructor
  · exact (zero_skip_direct_policy defaultSettings ["A", "B"] rowBothZero
      (.str "P1") ⟨[], []⟩ zeroRule rfl (by decide) (by decide)).1 (by decide)
      (by decide)
  · exact (zero_skip_direct_policy defaultSettings ["A", "B"]
      [("A", .num 0), ("B", .num 5)] (.str "P") ⟨[], []⟩ zeroRule rfl (by decide)
      (by decide)).2 5 (by decide) (by decide) (by decide) (by decide)

/-- Claim C4: a blank value on either side makes a Direct or Categorical
rule skip entirely — the per-record state is unchanged, so the rule is
scored neither as a mismatch nor as a match, for any tolerance and
zero-skip setting. -/
theorem blank_skip_policy (cfg : Settings) (cols : List String) (row : Row)
    (pid : Value) (s : RecState) :
    (∀ m : DirectRule,
      (isBlank (row.get m.mls_col) || isBlank (row.get m.cama_col)) = true →
      directStep cfg cols row pid s m = s) ∧
    (∀ m : CatRule,
      (isBlank (row.get m.mls_col) || isBlank (row.get m.cama_col)) = true →
      catStep cfg cols row pid s m = s) := by
  constructor
  · intro m h
    have hd : directEvaluated cols row m = false := by simp [directEvaluated, h]
    rw [directStep_eq, hd]
    rfl
  · intro m h
    have hd : catEvaluated cols row m = false := by simp [catEvaluated, h]
    rw [catStep_eq, hd]
    rfl

/-- Witness: an empty-string MLS value against CAMA ten is skipped for a
Direct and for a Categorical rule, under a tolerance of five. -/
theorem blank_skip_policy_witness :
    directStep ⟨5, true⟩ ["A", "B"] [("A", .str ""), ("B", .num 10)] (.str "P")
        ⟨[], []⟩ zeroRule = ⟨[], []⟩ ∧
    catStep ⟨5, true⟩ coolingCols [("Cooling", .str ""), ("HEAT", .num 10)]
        (.str "P") ⟨[], []⟩ coolingRule = ⟨[], []⟩ := by
  exact ⟨(blank_skip_policy ⟨5, true⟩ ["A", "B"] [("A", .str ""), ("B", .num 10)]
      (.str "P") ⟨[], []⟩).1 zeroRule (by decide),
    (blank_skip_policy ⟨5, true⟩ coolingCols [("Cooling", .str ""), ("HEAT", .num 10)]
      (.str "P") ⟨[], []⟩).2 coolingRule (by decide)⟩

/-- Claim C5 counterexample: at the default tolerance the numpy relative
term is referenced to the second argument only, so at magnitude 10^10
`values_equal` holds in one direction and fails in the other — symmetry
is refuted. -/
theorem values_equal_symm_counterexample :
    values_equal (1/100) (.num (10000000000 - 1001/100)) (.num 10000000000) = true ∧
    values_equal (1/100) (.num 10000000000) (.num (10000000000 - 1001/100)) = false := by
  decide

/-- Claim C5 (amended): `values_equal` is reflexive on every numerically
parseable value for a nonnegative tolerance, and it is symmetric whenever
the two parsed magnitudes agree or at least one side fails numeric
parsing — but not in general, as the relative tolerance term of
`np.isclose` is computed from the second argument only. -/
theorem values_equal_refl_symm_cases (tol : ℚ) :
    (∀ x : Value, 0 ≤ tol → toNumStrict x ≠ none → values_equal tol x x = true) ∧
    (∀ a b : Value,
      (∀ qa qb : ℚ, toNumStrict a = some (some qa) →
        toNumStrict b = some (some qb) → |qa| = |qb|) →
      values_equal tol a b = values_equal tol b a) := by
  constructor
  · intro x ht hx
    rcases hv : toNumStrict x with _ | (_ | q)
    · exact absurd hv hx
    · simp [values_equal, hv]
    · simp only [values_equal, hv, isClose]
      rw [sub_self, abs_zero, decide_eq_true_eq]
      have h9 : (0:ℚ) ≤ |q| / 1000000000 := by positivity
      linarith
  · intro a b hab
    rcases ha : toNumStrict a with _ | (_ | qa) <;>
      rcases hb : toNumStrict b with _ | (_ | qb) <;>
        simp only [values_equal, ha, hb] <;>
          first
            | rfl
            | exact string_beq_comm _ _
            | (have habs := hab qa qb ha hb
               simp [isClose, abs_sub_comm qa qb, habs])

/-- Witness: reflexivity at the number three, and symmetry between a
non-parseable text and a number. -/
theorem values_equal_refl_symm_cases_witness :
    values_equal (1/100) (.num 3) (.num 3) = true ∧
    values_equal (1/100) (.str "abc") (.num 2) =
      values_equal (1/100) (.num 2) (.str "abc") := by
  constructor
  · exact (values_equal_refl_symm_cases (1/100)).1 (.num 3) (by norm_num) (by decide)
  · refine (values_equal_refl_symm_cases (1/100)).2 (.str "abc") (.num 2) ?_
    intro qa qb ha hb
    have h0 : toNumStrict (Value.str "abc") = none := by decide
    rw [h0] at ha
    simp at ha

/-- Claim C6: for the configured Summed rule, MLS 800 against CAMA
components 300 + 200 + 300 passes and contributes a perfect match, while
components summing to 750 emit exactly one mismatch entry whose CAMA
value is the sum 750 and whose computed difference is the string
50.00. -/
theorem summed_rule_scenarios :
    (processBothRecord defaultSettings belowGradeCols rowSum800 (.str "P")
        ⟨[], [belowGradeRule], []⟩).mism = [] ∧
    (perfectOf (processBothRecord defaultSettings belowGradeCols rowSum800
        (.str "P") ⟨[], [belowGradeRule], []⟩) (.str "P")).length = 1 ∧
    ((processBothRecord defaultSettings belowGradeCols rowSum750 (.str "P")
        ⟨[], [belowGradeRule], []⟩).mism.map (fun e => e.difference)) =
      [some "50.00"] ∧
    ((processBothRecord defaultSettings belowGradeCols rowSum750 (.str "P")
        ⟨[], [belowGradeRule], []⟩).mism.map (fun e => e.cama_value)) =
      [.num 750] := by
  decide

/-- Claim C7: for the configured Categorical rule with case-insensitive
matching, MLS text containing the check text with CAMA code 1 passes,
while MLS text None with CAMA code 1 emits a mismatch entry whose
expected CAMA value is 0. -/
theorem categorical_rule_scenarios :
    (processBothRecord defaultSettings coolingCols rowCooling1 (.str "P")
        ⟨[], [], [coolingRule]⟩).mism = [] ∧
    ((processBothRecord defaultSettings coolingCols rowCooling2 (.str "P")
        ⟨[], [], [coolingRule]⟩).mism.map (fun e => e.expected_CAMA_value)) =
      [some (.num 0)] := by
  decide

/-- Claim C8 counterexample: the claimed string-equality fallback would
reject a CAMA text Yes against an expected text No, but the code coerces
both to NaN and returns a match — the spec-modelled comparison and the
source comparison disagree at this input. -/
theorem categorical_fallback_counterexample :
    categorical_match (1/100) (.str "None") (.str "Yes") coolingRuleText = true ∧
    categoricalMatchSpec (1/100) (.str "None") (.str "Yes") coolingRuleText = false := by
  decide

/-- Claim C8 (amended): numeric parse failures never propagate — the
coercion turns them into NaN, so two unparseable sides always compare
equal (regardless of their text), and exactly one unparseable side is
always a mismatch; the string-equality fallback branch of the source is
unreachable for scalar values. -/
theorem categorical_match_coercion_policy (tol : ℚ) (mls_val cama_val : Value)
    (r : CatRule) :
    (toNumCoerce cama_val = none → toNumCoerce (expectedCama r mls_val) = none →
      categorical_match tol mls_val cama_val r = true) ∧
    (∀ q : ℚ, toNumCoerce cama_val = some q →
      toNumCoerce (expectedCama r mls_val) = none →
      categorical_match tol mls_val cama_val r = false) ∧
    (∀ q : ℚ, toNumCoerce cama_val = none →
      toNumCoerce (expectedCama r mls_val) = some q →
      categorical_match tol mls_val cama_val r = false) := by
  refine ⟨fun h1 h2 => ?_, fun q h1 h2 => ?_, fun q h1 h2 => ?_⟩ <;>
    simp [categorical_match, h1, h2]

/-- Witness: text Yes against expected text yes passes; a numeric CAMA
code against an unparseable expected text mismatches, as does an
unparseable CAMA text against a numeric expected code. -/
theorem categorical_match_coercion_policy_witness :
    categorical_match (1/100) (.str "None") (.str "Yes") coolingRuleYes = true ∧
    categorical_match (1/100) (.str "None") (.num 1) coolingRuleText = false ∧
    categorical_match (1/100) (.str "None") (.str "Yes") coolingRule = false := by
  refine ⟨(categorical_match_coercion_policy (1/100) (.str "None") (.str "Yes")
      coolingRuleYes).1 (by decide) (by decide),
    (categorical_match_coercion_policy (1/100) (.str "None") (.num 1)
      coolingRuleText).2.1 1 (by decide) (by decide),
    (categorical_match_coercion_policy (1/100) (.str "None") (.str "Yes")
      coolingRule).2.2 0 (by decide) (by decide)⟩

/-- Claim C9: the reconciliation engine is a pure function of its inputs
(tables, key mapping, rules, tolerance and zero-skip settings): equal
inputs produce identical, identically ordered result collections, so a
second run on the same inputs reproduces the first. -/
theorem reconcile_deterministic (df_mls df_mls2 df_cama df_cama2 : Table)
    (mlsKey mlsKey2 camaKey camaKey2 : String) (rules rules2 : RuleSet)
    (cfg cfg2 : Settings)
    (h1 : df_mls = df_mls2) (h2 : df_cama = df_cama2) (h3 : mlsKey = mlsKey2)
    (h4 : camaKey = camaKey2) (h5 : rules = rules2) (h6 : cfg = cfg2) :
    compare_data_enhanced df_mls df_cama mlsKey camaKey rules cfg =
      compare_data_enhanced df_mls2 df_cama2 mlsKey2 camaKey2 rules2 cfg2 := by
  rw [h1, h2, h3, h4, h5, h6]

/-- Witness: two runs over the example tables coincide. -/
theorem reconcile_deterministic_witness :
    compare_data_enhanced exampleMls exampleCama "Parcel Number" "PARID"
        exampleRules defaultSettings =
      compare_data_enhanced exampleMls exampleCama "Parcel Number" "PARID"
        exampleRules defaultSettings :=
  reconcile_deterministic exampleMls exampleMls exampleCama exampleCama
    "Parcel Number" "Parcel Number" "PARID" "PARID" exampleRules exampleRules
    defaultSettings defaultSettings rfl rfl rfl rfl rfl rfl

/-- Claim C10: for a Summed rule with all columns present and a non-blank
MLS value, the CAMA side is skipped exactly when every component is null;
with at least one component present the rule is evaluated, and null
components contribute nothing to the sum — filtering them out leaves the
computed sum unchanged. -/
theorem summed_side_skip_policy (cfg : Settings) (cols : List String) (row : Row)
    (pid : Value) (s : RecState) (m : SumRule)
    (hp : (cols.contains m.mls_col && m.cama_cols.all fun c => cols.contains c) = true)
    (hmb : isBlank (row.get m.mls_col) = false) :
    ((m.cama_cols.all fun c => (row.get c).isNull) = true →
      sumStep cfg cols row pid s m = s) ∧
    ((m.cama_cols.all fun c => (row.get c).isNull) = false →
      (sumStep cfg cols row pid s m).fields = s.fields ++ [m.mls_col]) ∧
    camaSum row m.cama_cols =
      camaSum row (m.cama_cols.filter fun c => !(row.get c).isNull) := by
  refine ⟨fun hall => ?_, fun hall => ?_, ?_⟩
  · have hd : sumEvaluated cols row m = false := by simp [sumEvaluated, hall]
    rw [sumStep_eq, hd]
    rfl
  · have hd : sumEvaluated cols row m = true := by
      simp only [sumEvaluated, hp, hmb, hall, Bool.not_false, Bool.and_self,
        Bool.true_and, Bool.and_true]
    rw [sumStep_eq, hd]
    rfl
  · rw [camaSum, camaSum, camaSum_skip_null]

/-- Witness: a record with every CAMA component null is skipped; a record
with one null component is still evaluated, and its sum over all
components equals the sum over the present components. -/
theorem summed_side_skip_policy_witness :
    sumStep defaultSettings belowGradeCols
        [("PARID", .str "P"), ("Below Grade Finished Area", .num 500),
         ("RECROMAREA", .null), ("FINBSMTAREA", .null), ("UFEATAREA", .null)]
        (.str "P") ⟨[], []⟩ belowGradeRule = ⟨[], []⟩ ∧
    (sumStep defaultSettings belowGradeCols
        [("PARID", .str "P"), ("Below Grade Finished Area", .num 500),
         ("RECROMAREA", .num 300), ("FINBSMTAREA", .null), ("UFEATAREA", .num 200)]
        (.str "P") ⟨[], []⟩ belowGradeRule).fields =
      ["Below Grade Finished Area"] ∧
    camaSum
        [("PARID", .str "P"), ("Below Grade Finished Area", .num 500),
         ("RECROMAREA", .num 300), ("FINBSMTAREA", .null), ("UFEATAREA", .num 200)]
        belowGradeRule.cama_cols =
      camaSum
        [("PARID", .str "P"), ("Below Grade Finished Area", .num 500),
         ("RECROMAREA", .num 300), ("FINBSMTAREA", .null), ("UFEATAREA", .num 200)]
        (belowGradeRule.cama_cols.filter
          (fun c => !(Row.get
            [("PARID", .str "P"), ("Below Grade Finished Area", .num 500),
             ("RECROMAREA", .num 300), ("FINBSMTAREA", .null),
             ("UFEATAREA", .num 200)] c).isNull)) := by
  refine ⟨(summed_side_skip_policy defaultSettings belowGradeCols _ (.str "P")
      ⟨[], []⟩ belowGradeRule (by decide) (by decide)).1 (by decide),
    (summed_side_skip_policy defaultSettings belowGradeCols _ (.str "P")
      ⟨[], []⟩ belowGradeRule (by decide) (by decide)).2.1 (by decide),
    (summed_side_skip_policy defaultSettings belowGradeCols _ (.str "P")
      ⟨[], []⟩ belowGradeRule (by decide) (by decide)).2.2⟩

end

end MlsCama
